import Mathlib

/-!
Verification development for the vr-display-sync relay server
(`src/server.js`) and the VR-side calibration/controller-state code
(`src/unnamed/part_007`, `src/unnamed/part_008`).

The server is embedded as a pure step function over an explicit state:
`connectedClients` (a JS `Map`, i.e. an insertion-ordered association
list with unique keys), the `wallRegistered` flag, and a fresh-id
supply standing for `uuidv4()`.  Outbound `ws.send` calls are collected
as a list of `(socket, message)` pairs; a JavaScript exception escaping
a handler is an explicit boolean flag, and the `ws.on('message')`
wrapper converts it into the `'Invalid JSON format'` error reply, as
the `try/catch` in `server.js` does.
-/

namespace VRDS

/-- Client types accepted by `handleClientRegistration` (`server.js`). -/
inductive CType
  | WALL
  | VR
  | DESKTOP
deriving DecidableEq, Repr

/-- One entry of the `connectedClients` map: `{ type, userID }`. -/
structure ClientInfo where
  ctype : CType
  userID : Nat
deriving DecidableEq, Repr

/-- `connectedClients`: a JS `Map` keyed by websocket, modelled as an
insertion-ordered association list with socket ids as keys. -/
abbrev Clients := List (Nat × ClientInfo)

/-- `Map.set`: replace in place if the key exists, else append. -/
def mapSet (m : Clients) (k : Nat) (v : ClientInfo) : Clients :=
  if m.any (fun e => e.1 = k) then
    m.map (fun e => if e.1 = k then (k, v) else e)
  else
    m ++ [(k, v)]

/-- `Map.get`: the value stored at key `k`, if any. -/
def mapGet (m : Clients) (k : Nat) : Option ClientInfo :=
  (m.find? (fun e => e.1 = k)).map (fun e => e.2)

/-- `Map.delete`. -/
def mapDelete (m : Clients) (k : Nat) : Clients :=
  m.filter (fun e => e.1 ≠ k)

/-- The relay server's mutable state (`server.js` lines 14-15 plus the
`uuidv4` supply, modelled as a counter). -/
structure ServerState where
  clients : Clients
  wallRegistered : Bool
  nextID : Nat
deriving DecidableEq, Repr

/-- Messages the server sends to clients (the payloads of
`sendMessage`/`sendError` in `server.js`). -/
inductive ServerMsg
  | regError (text : String)
  | regSuccess (text : String)
  | newClient (ctype : CType) (userID : Nat)
  | wallDisconnected
  | clientDisconnected (ctype : CType) (userID : Nat)
  | wallCalibration (payload : String)
  | vrControllerState (payload : String) (userID : Nat)
  | error (text : String)
deriving DecidableEq, Repr

/-- A parsed inbound JSON envelope: `data.type`, `data.clientType`
(read only by `handleClientRegistration`) and an opaque `data.message`
payload. -/
structure Envelope where
  type? : Option String
  clientType? : Option String
  message : String
deriving DecidableEq, Repr

/-- Raw inbound data: either text that fails `JSON.parse`, or a parsed
envelope. -/
inductive Raw
  | malformed
  | parsed (env : Envelope)
deriving DecidableEq, Repr

/-- Events the server reacts to: a message from a socket, or a socket
closing. -/
inductive Event
  | message (ws : Nat) (raw : Raw)
  | close (ws : Nat)
deriving DecidableEq, Repr

/-- `getWallClient` (`server.js` lines 200-208): `null` unless
`wallRegistered`, else the first map entry whose type is `WALL`. -/
def getWallClient (st : ServerState) : Option Nat :=
  if st.wallRegistered then
    ((st.clients.find? (fun e => e.2.ctype = CType.WALL)).map (fun e => e.1))
  else
    none

/-- A step result: new state, messages sent (in order), and whether the
handler threw a JavaScript exception that escapes it. -/
abbrev StepResult := ServerState × List (Nat × ServerMsg) × Bool

/-- `handleClientRegistration` (`server.js` lines 80-149).

The `WALL` branch, when no wall is registered, stores the new client,
replies `REGISTRATION_SUCCESS`, then iterates `connectedClients` and
sends one `NEW_CLIENT` per non-`WALL` entry to `getWallClient()`.  The
`VR`/`DESKTOP` branch stores the client, replies success, and notifies
`getWallClient()` if `wallRegistered`; `sendMessage(null, ...)` throws
when `getWallClient()` is `null`, which the model records in the flag. -/
def handleClientRegistration (st : ServerState) (ws : Nat)
    (clientType? : Option String) : StepResult :=
  match clientType? with
  | none => (st, [(ws, ServerMsg.error "Client type is required")], false)
  | some ct =>
    if ct = "WALL" then
      if st.wallRegistered then
        (st, [(ws, ServerMsg.regError "Wall client already registered")], false)
      else
        let info : ClientInfo := ⟨CType.WALL, st.nextID⟩
        let st' : ServerState := ⟨mapSet st.clients ws info, true, st.nextID + 1⟩
        match getWallClient st' with
        | some w =>
          (st',
           (ws, ServerMsg.regSuccess "Successfully registered as WALL client") ::
             ((st'.clients.filter (fun e => e.2.ctype ≠ CType.WALL)).map
               (fun e => (w, ServerMsg.newClient e.2.ctype e.2.userID))),
           false)
        | none =>
          -- unreachable in fact (the wall was just stored), kept for fidelity:
          -- `sendMessage(null, ...)` would throw on the first loop iteration
          (st',
           [(ws, ServerMsg.regSuccess "Successfully registered as WALL client")],
           ¬ (st'.clients.filter (fun e => e.2.ctype ≠ CType.WALL)).isEmpty)
    else if ct = "VR" ∨ ct = "DESKTOP" then
      let info : ClientInfo :=
        ⟨if ct = "VR" then CType.VR else CType.DESKTOP, st.nextID⟩
      let st' : ServerState :=
        ⟨mapSet st.clients ws info, st.wallRegistered, st.nextID + 1⟩
      let success := (ws, ServerMsg.regSuccess
        ("Successfully registered as " ++ ct ++ " client"))
      if st.wallRegistered then
        match getWallClient st' with
        | some w =>
          (st', [success, (w, ServerMsg.newClient info.ctype info.userID)], false)
        | none => (st', [success], true)     -- sendMessage(null, ...) throws
      else
        (st', [success], false)
    else
      (st, [(ws, ServerMsg.error ("Unknown client type: " ++ ct))], false)

/-- `handleMessage` (`server.js` lines 39-77): the switch on
`data.type`.  `ERROR` only logs; `WALL_CALIBRATION` fans the payload
out to every `VR` client; `VR_CONTROLLER_STATE` reads
`connectedClients.get(ws).userID` (throwing if the sender is not
registered) and relays to the wall when one exists; any other type,
including `GAME_EVENT`, reaches the `default` branch. -/
def handleMessage (st : ServerState) (ws : Nat) (env : Envelope) : StepResult :=
  match env.type? with
  | none => (st, [(ws, ServerMsg.error "No data type specified")], false)
  | some t =>
    if t = "REGISTER_CLIENT" then
      handleClientRegistration st ws env.clientType?
    else if t = "ERROR" then
      (st, [], false)
    else if t = "WALL_CALIBRATION" then
      (st,
       (st.clients.filter (fun e => e.2.ctype = CType.VR)).map
         (fun e => (e.1, ServerMsg.wallCalibration env.message)),
       false)
    else if t = "VR_CONTROLLER_STATE" then
      match mapGet st.clients ws with
      | none => (st, [], true)               -- senderClientInfo.userID throws
      | some info =>
        match getWallClient st with
        | some w => (st, [(w, ServerMsg.vrControllerState env.message info.userID)], false)
        | none => (st, [], false)            -- `if (wallClient)` guard
    else
      (st, [(ws, ServerMsg.error "Data type has no matches")], false)

/-- `handleDisconnection` (`server.js` lines 151-183).  A registered
`WALL` closing broadcasts `WALL_DISCONNECTED` to every `VR` client and
clears `wallRegistered`; another registered client closing notifies the
wall via `getWallClient()` (which throws inside `sendMessage` if it is
`null` while `wallRegistered`, skipping the deletion); unregistered
sockets are ignored. -/
def handleDisconnection (st : ServerState) (ws : Nat) : StepResult :=
  match mapGet st.clients ws with
  | none => (st, [], false)
  | some info =>
    if info.ctype = CType.WALL then
      let msgs :=
        if st.wallRegistered then
          (st.clients.filter (fun e => e.2.ctype = CType.VR)).map
            (fun e => (e.1, ServerMsg.wallDisconnected))
        else []
      (⟨mapDelete st.clients ws, false, st.nextID⟩, msgs, false)
    else
      if st.wallRegistered then
        match getWallClient st with
        | some w =>
          (⟨mapDelete st.clients ws, st.wallRegistered, st.nextID⟩,
           [(w, ServerMsg.clientDisconnected info.ctype info.userID)], false)
        | none => (st, [], true)             -- sendMessage(null, ...) throws
      else
        (⟨mapDelete st.clients ws, st.wallRegistered, st.nextID⟩, [], false)

/-- One reaction of the server to an event (`wss.on('connection')`
handlers, `server.js` lines 210-229).  The `message` handler wraps
`JSON.parse` + `handleMessage` in `try/catch` and answers
`'Invalid JSON format'` on any throw; the `close` handler is not
wrapped (a throw there is an uncaught exception). -/
def serverStep (st : ServerState) (ev : Event) :
    ServerState × List (Nat × ServerMsg) :=
  match ev with
  | Event.message ws Raw.malformed =>
    (st, [(ws, ServerMsg.error "Invalid JSON format")])
  | Event.message ws (Raw.parsed env) =>
    let r := handleMessage st ws env
    (r.1, if r.2.2 then r.2.1 ++ [(ws, ServerMsg.error "Invalid JSON format")] else r.2.1)
  | Event.close ws =>
    let r := handleDisconnection st ws
    (r.1, r.2.1)

/-- The server's initial state: empty client map, no wall. -/
def initState : ServerState := ⟨[], false, 0⟩

/-- Run the server over a list of events, accumulating only the state. -/
def applyEvents (st : ServerState) (evs : List Event) : ServerState :=
  evs.foldl (fun s ev => (serverStep s ev).1) st

/-- Number of `WALL` entries in the client table. -/
def wallCount (st : ServerState) : Nat :=
  (st.clients.filter (fun e => e.2.ctype = CType.WALL)).length

/-- Number of `WALL` entries in a client table. -/
def wallsIn (m : Clients) : Nat :=
  (m.filter (fun e => e.2.ctype = CType.WALL)).length

/-- Structural invariant of the server state: socket keys are unique
(a `Map` property), `userID`s are unique and below the supply counter
(`uuidv4` freshness), at most one `WALL` entry exists, and a cleared
`wallRegistered` flag means no `WALL` entry at all. -/
def Inv (st : ServerState) : Prop :=
  (st.clients.map Prod.fst).Nodup ∧
  (st.clients.map (fun e => e.2.userID)).Nodup ∧
  (∀ e ∈ st.clients, e.2.userID < st.nextID) ∧
  wallCount st ≤ 1 ∧
  (st.wallRegistered = false → wallCount st = 0)

/-! ## JavaScript numbers with NaN and infinities

The controller-state publisher's guard (`part_007` lines 291-297 and
`part_008` lines 753-755) is about `NaN` and finiteness, so for it the
IEEE special values are modelled explicitly; finite values are kept as
exact rationals. -/

/-- A JavaScript number: a finite value, an infinity, or `NaN`. -/
inductive JSNum
  | num (q : ℚ)
  | posInf
  | negInf
  | nan
deriving DecidableEq, Repr

namespace JSNum

/-- JS multiplication: `NaN` is absorbing; an infinity times a nonzero
finite value keeps the product's sign; infinity times zero is `NaN`. -/
def mul : JSNum → JSNum → JSNum
  | nan, _ => nan
  | _, nan => nan
  | num a, num b => num (a * b)
  | num a, posInf => if 0 < a then posInf else if a < 0 then negInf else nan
  | num a, negInf => if 0 < a then negInf else if a < 0 then posInf else nan
  | posInf, num b => if 0 < b then posInf else if b < 0 then negInf else nan
  | negInf, num b => if 0 < b then negInf else if b < 0 then posInf else nan
  | posInf, posInf => posInf
  | posInf, negInf => negInf
  | negInf, posInf => negInf
  | negInf, negInf => posInf

/-- JS subtraction on the same domain. -/
def sub : JSNum → JSNum → JSNum
  | nan, _ => nan
  | _, nan => nan
  | num a, num b => num (a - b)
  | num _, posInf => negInf
  | num _, negInf => posInf
  | posInf, num _ => posInf
  | posInf, posInf => nan
  | posInf, negInf => posInf
  | negInf, num _ => negInf
  | negInf, posInf => negInf
  | negInf, negInf => posInf

/-- JS `isNaN`. -/
def isNaN : JSNum → Bool
  | nan => true
  | _ => false

/-- JS `Number.isFinite`. -/
def isFinite : JSNum → Bool
  | num _ => true
  | _ => false

/-- JS `Math.round`: round half toward positive infinity; infinities
and `NaN` are returned unchanged. -/
def round : JSNum → JSNum
  | num q => num ((⌊q + 1/2⌋ : ℤ) : ℚ)
  | posInf => posInf
  | negInf => negInf
  | nan => nan

/-- JS truthiness of a number: `0` and `NaN` are falsy. -/
def truthy : JSNum → Bool
  | num q => decide (q ≠ 0)
  | posInf => true
  | negInf => true
  | nan => false

end JSNum

/-- Per-controller screen state stored by `onFrame`
(`latestScreenState[side]`, `part_007` lines 283-301): only the fields
the claim is about (`onScreen` and the pixel coordinates). -/
structure SideState where
  onScreen : Bool
  canvasX? : Option JSNum
  canvasY? : Option JSNum
deriving DecidableEq, Repr

/-- The `{ onScreen: false }` record (no pixel coordinates). -/
def offScreen : SideState := ⟨false, none, none⟩

/-- `onFrame`'s per-side intersection handling (`part_007` lines
283-301): `hit` is the resolved ray hit (`none` when the ray misses the
rectangle or the intersection has no UV data, i.e. the pointer is not
on the display); on a hit, `canvasX = u * screenWidth`,
`canvasY = (1 - v) * screenHeight`, kept only if neither is `NaN`. -/
def controllerScreenState (hit : Option (JSNum × JSNum))
    (screenWidth screenHeight : JSNum) : SideState :=
  match hit with
  | none => offScreen
  | some (u, v) =>
    let canvasX := u.mul screenWidth
    let canvasY := ((JSNum.num 1).sub v).mul screenHeight
    if ¬ canvasX.isNaN ∧ ¬ canvasY.isNaN then
      ⟨true, some canvasX.round, some canvasY.round⟩
    else
      offScreen

/-- `sendVRState`'s guard and pixel payload (`part_008` lines 738-788):
returns the `(canvasX, canvasY)` pair carried by the published
`VR_CONTROLLER_STATE`, or `none` when nothing is published.  The
button/pose fields of the published message do not bear on the claims
and are omitted.  The entry guard is JS truthiness
(`!calibrated || !screenRect || !wallWidth || !wallHeight`); the screen
mesh's existence is folded into `calibrated` here. -/
def sendVRStatePixels (calibrated : Bool) (wallWidth wallHeight : JSNum)
    (hit : Option (JSNum × JSNum)) : Option (JSNum × JSNum) :=
  if ¬ calibrated ∨ ¬ wallWidth.truthy ∨ ¬ wallHeight.truthy then none
  else
    match hit with
    | none => none
    | some (u, v) =>
      let canvasX := u.mul wallWidth
      let canvasY := ((JSNum.num 1).sub v).mul wallHeight
      if canvasX.isNaN ∨ canvasY.isNaN then none
      else some (canvasX.round, canvasY.round)

/-! ## Calibration geometry

The calibration coordinator's rectangle edits (`part_007` lines
419-489) are real-vector arithmetic (plus `Math.sqrt`, `Math.exp`,
`Math.atan2`), embedded over `ℝ`. -/

/-- A `THREE.Vector3`. -/
structure Vec3 where
  x : ℝ
  y : ℝ
  z : ℝ

namespace Vec3

/-- `Vector3.add`. -/
def add (a b : Vec3) : Vec3 := ⟨a.x + b.x, a.y + b.y, a.z + b.z⟩

/-- `Vector3.sub`. -/
def sub (a b : Vec3) : Vec3 := ⟨a.x - b.x, a.y - b.y, a.z - b.z⟩

/-- `Vector3.multiplyScalar`. -/
def smul (c : ℝ) (a : Vec3) : Vec3 := ⟨c * a.x, c * a.y, c * a.z⟩

/-- `Vector3.dot`. -/
def dot (a b : Vec3) : ℝ := a.x * b.x + a.y * b.y + a.z * b.z

/-- `Vector3.length`: `sqrt(x*x + y*y + z*z)`. -/
noncomputable def length (a : Vec3) : ℝ := Real.sqrt (a.dot a)

/-- Modelled from the three.js library (not part of this repository's
`src/`): `Vector3.normalize` divides by `this.length() || 1`, so the
zero vector normalizes to itself rather than to `NaN` components. -/
noncomputable def normalize (a : Vec3) : Vec3 :=
  open Classical in
  smul (1 / (if a.length = 0 then 1 else a.length)) a

end Vec3

/-- The rectangle-related mutable state of the calibration coordinator
(`part_007` top-level variables `topLeftCorner`, `bottomRightCorner`,
`rectXDistance`, `rectYDistance`, `aspectRatio`). -/
structure RectState where
  topLeft : Vec3
  bottomRight : Vec3
  rectXDistance : ℝ
  rectYDistance : ℝ
  aspectRatio : ℝ

/-- Which scale cube is grabbed (`userData.corner`). -/
inductive Corner
  | topLeft
  | bottomRight
deriving DecidableEq, Repr

/-- One in-grab frame's edit, with the `grabState` fields each branch
reads (`startTopLeft`/`startBottomRight` are passed separately) and the
controller's current position `curr` (`raySpace.position`). -/
inductive EditAction
  | translate (axisWorld startWidgetWorldPos : Vec3) (startProjected : ℝ) (curr : Vec3)
  | rotate (startWidgetWorldPos startControllerPos curr : Vec3)
  | scale (corner : Corner) (startControllerPos curr : Vec3)

/-- `Math.atan2 y x`, via the complex argument of `x + y*I`. -/
noncomputable def atan2 (y x : ℝ) : ℝ := Complex.arg ⟨x, y⟩

/-- `rotatePointAroundY` (`part_007` lines 90-96). -/
noncomputable def rotatePointAroundY (point center : Vec3) (angle : ℝ) : Vec3 :=
  let p := point.sub center
  let c := Real.cos angle
  let s := Real.sin angle
  Vec3.add ⟨p.x * c - p.z * s, p.y, p.x * s + p.z * c⟩ center

/-- The corner updates of one in-grab frame (`part_007` lines 419-483),
one branch per `grabState.type`.  The scale branch writes only the
manipulated corner; the anchor keeps its current value. -/
noncomputable def applyEdit (startTopLeft startBottomRight : Vec3)
    (act : EditAction) (s : RectState) : RectState :=
  match act with
  | EditAction.translate axisWorld startWidgetWorldPos startProjected curr =>
    let rel := curr.sub startWidgetWorldPos
    let amount := rel.dot axisWorld - startProjected
    let translateVec := Vec3.smul amount axisWorld
    { s with topLeft := startTopLeft.add translateVec,
             bottomRight := startBottomRight.add translateVec }
  | EditAction.rotate startWidgetWorldPos startControllerPos curr =>
    let widgetCenter := startWidgetWorldPos
    let startVec := startControllerPos.sub widgetCenter
    let startAngle := atan2 startVec.z startVec.x
    let currAngle := atan2 (curr.z - widgetCenter.z) (curr.x - widgetCenter.x)
    let deltaAngle := currAngle - startAngle
    let center : Vec3 :=
      ⟨startTopLeft.x + (startBottomRight.x - startTopLeft.x) / 2,
       startTopLeft.y - s.rectYDistance / 2,
       startTopLeft.z + (startBottomRight.z - startTopLeft.z) / 2⟩
    { s with topLeft := rotatePointAroundY startTopLeft center deltaAngle,
             bottomRight := rotatePointAroundY startBottomRight center deltaAngle }
  | EditAction.scale corner startControllerPos curr =>
    let fixed := match corner with
      | Corner.topLeft => startBottomRight
      | Corner.bottomRight => startTopLeft
    let movingStart := match corner with
      | Corner.topLeft => startTopLeft
      | Corner.bottomRight => startBottomRight
    let dir := movingStart.sub fixed
    let dirNorm := dir.normalize
    let delta := curr.sub startControllerPos
    let projected := delta.dot dirNorm
    let k : ℝ := 1
    let scaleFactor := Real.exp (k * (projected / max 0.001 dir.length))
    let newMoving := fixed.add (Vec3.smul scaleFactor dir)
    match corner with
    | Corner.topLeft => { s with topLeft := newMoving }
    | Corner.bottomRight => { s with bottomRight := newMoving }

/-- The measure recomputation run after every edit (`part_007` lines
484-488, repeated by `addScreenRect` lines 580-586 and by the
keep-live-rectangle block lines 517-523, all computing the same
values): `rectXDistance` is the corners' XZ-plane distance and
`rectYDistance = rectXDistance / aspectRatio`. -/
noncomputable def remeasure (s : RectState) : RectState :=
  let dx := s.bottomRight.x - s.topLeft.x
  let dz := s.bottomRight.z - s.topLeft.z
  let rx := Real.sqrt (dx * dx + dz * dz)
  { s with rectXDistance := rx, rectYDistance := rx / s.aspectRatio }

/-- One full in-grab frame: the per-type corner edit followed by the
measure recomputation. -/
noncomputable def grabFrameUpdate (startTopLeft startBottomRight : Vec3)
    (act : EditAction) (s : RectState) : RectState :=
  remeasure (applyEdit startTopLeft startBottomRight act s)

/-- `handleCalibration` (`part_007` lines 740-759), not-yet-calibrated
path: derives `aspectRatio` from the display's reported pixel size,
seeds the default rectangle, and (via `addScreenRect`) recomputes the
measures. -/
noncomputable def handleCalibrationSeed (screenWidth screenHeight : ℝ) : RectState :=
  let aspect := screenWidth / screenHeight
  let rx : ℝ := 1
  let ry := rx / aspect
  let center : Vec3 := ⟨0, -0.3, -0.6⟩
  remeasure
    ⟨⟨center.x - rx / 2, center.y + ry / 2, center.z⟩,
     ⟨center.x + rx / 2, center.y - ry / 2, center.z⟩,
     rx, ry, aspect⟩

/-! ## Map lemmas -/

lemma wallCount_eq (st : ServerState) : wallCount st = wallsIn st.clients := rfl

lemma mem_mapSet {m : Clients} {k : Nat} {v : ClientInfo} {e : Nat × ClientInfo}
    (h : e ∈ mapSet m k v) : e = (k, v) ∨ e ∈ m := by
  unfold mapSet at h
  split at h
  · rcases List.mem_map.1 h with ⟨a, ha, rfl⟩
    by_cases hak : a.1 = k
    · simp [hak]
    · simp [hak, ha]
  · rcases List.mem_append.1 h with h | h
    · exact Or.inr h
    · simp only [List.mem_singleton] at h
      exact Or.inl h

lemma map_fst_replace (m : Clients) (k : Nat) (v : ClientInfo) :
    (m.map (fun e => if e.1 = k then (k, v) else e)).map Prod.fst =
      m.map Prod.fst := by
  induction m with
  | nil => rfl
  | cons a t ih =>
    simp only [List.map_cons, ih]
    by_cases h : a.1 = k
    · simp [h]
    · simp [h]

lemma mapSet_of_not_mem {m : Clients} {k : Nat} (v : ClientInfo)
    (h : ∀ e ∈ m, e.1 ≠ k) : mapSet m k v = m ++ [(k, v)] := by
  have hc : ¬ (m.any (fun e => e.1 = k) = true) := by
    simp only [List.any_eq_true, decide_eq_true_eq]
    rintro ⟨e, he, hek⟩
    exact h e he hek
  unfold mapSet
  rw [if_neg hc]

lemma replace_of_not_mem {m : Clients} {k : Nat} (v : ClientInfo)
    (h : ∀ e ∈ m, e.1 ≠ k) :
    m.map (fun e => if e.1 = k then (k, v) else e) = m := by
  induction m with
  | nil => rfl
  | cons a t ih =>
    have ha : a.1 ≠ k := h a (List.mem_cons_self a t)
    simp only [List.map_cons, if_neg ha]
    rw [ih (fun e he => h e (List.mem_cons_of_mem a he))]

lemma keys_nodup_mapSet {m : Clients} {k : Nat} {v : ClientInfo}
    (h : (m.map Prod.fst).Nodup) : ((mapSet m k v).map Prod.fst).Nodup := by
  by_cases hc : m.any (fun e => e.1 = k) = true
  · unfold mapSet
    rw [if_pos hc, map_fst_replace]
    exact h
  · have hk : ∀ e ∈ m, e.1 ≠ k := by
      simp only [List.any_eq_true, decide_eq_true_eq] at hc
      intro e he hek
      exact hc ⟨e, he, hek⟩
    rw [mapSet_of_not_mem v hk]
    simp only [List.map_append, List.map_cons, List.map_nil]
    rw [List.nodup_append]
    refine ⟨h, List.nodup_singleton k, ?_⟩
    intro a ha hb
    simp only [List.mem_singleton] at hb
    subst hb
    rcases List.mem_map.1 ha with ⟨e, he, hek⟩
    exact hk e he hek

lemma mem_uid_replace {t : Clients} {k : Nat} {v : ClientInfo} {x : Nat}
    (h : x ∈ (t.map (fun e => if e.1 = k then (k, v) else e)).map
      (fun e => e.2.userID)) :
    x = v.userID ∨ x ∈ t.map (fun e => e.2.userID) := by
  simp only [List.map_map, List.mem_map, Function.comp] at h
  rcases h with ⟨e, he, hx⟩
  by_cases hek : e.1 = k
  · left
    rw [if_pos hek] at hx
    exact hx.symm
  · right
    rw [if_neg hek] at hx
    exact List.mem_map.2 ⟨e, he, hx⟩

lemma uid_nodup_replace (m : Clients) (k : Nat) (v : ClientInfo)
    (hk : (m.map Prod.fst).Nodup)
    (hu : (m.map (fun e => e.2.userID)).Nodup)
    (hfresh : ∀ e ∈ m, e.2.userID ≠ v.userID) :
    ((m.map (fun e => if e.1 = k then (k, v) else e)).map
      (fun e => e.2.userID)).Nodup := by
  induction m with
  | nil => simp
  | cons a t ih =>
    simp only [List.map_cons, List.nodup_cons] at hk hu ⊢
    obtain ⟨hk1, hk2⟩ := hk
    obtain ⟨hu1, hu2⟩ := hu
    have hfresh' : ∀ e ∈ t, e.2.userID ≠ v.userID :=
      fun e he => hfresh e (List.mem_cons_of_mem a he)
    refine ⟨?_, ih hk2 hu2 hfresh'⟩
    by_cases hak : a.1 = k
    · have ht : ∀ e ∈ t, e.1 ≠ k := by
        intro e he hek
        exact hk1 (List.mem_map.2 ⟨e, he, by rw [hek, hak]⟩)
      rw [replace_of_not_mem v ht, if_pos hak]
      intro hx
      rcases List.mem_map.1 hx with ⟨e, he, hex⟩
      exact hfresh' e he hex
    · rw [if_neg hak]
      intro hx
      rcases mem_uid_replace hx with h | h
      · exact hfresh a (List.mem_cons_self a t) h
      · exact hu1 h

lemma uid_nodup_mapSet {m : Clients} {k : Nat} {v : ClientInfo}
    (hk : (m.map Prod.fst).Nodup)
    (hu : (m.map (fun e => e.2.userID)).Nodup)
    (hfresh : ∀ e ∈ m, e.2.userID ≠ v.userID) :
    ((mapSet m k v).map (fun e => e.2.userID)).Nodup := by
  by_cases hc : m.any (fun e => e.1 = k) = true
  · unfold mapSet
    rw [if_pos hc]
    exact uid_nodup_replace m k v hk hu hfresh
  · unfold mapSet
    rw [if_neg hc]
    simp only [List.map_append, List.map_cons, List.map_nil]
    rw [List.nodup_append]
    refine ⟨hu, List.nodup_singleton _, ?_⟩
    intro x hx hy
    simp only [List.mem_singleton] at hy
    subst hy
    rcases List.mem_map.1 hx with ⟨e, he, hex⟩
    exact hfresh e he hex

lemma wallsIn_append (m₁ m₂ : Clients) :
    wallsIn (m₁ ++ m₂) = wallsIn m₁ + wallsIn m₂ := by
  simp [wallsIn, List.filter_append]

lemma wallsIn_cons_wall {a : Nat × ClientInfo} (t : Clients)
    (h : a.2.ctype = CType.WALL) : wallsIn (a :: t) = wallsIn t + 1 := by
  simp [wallsIn, List.filter_cons, h, Nat.add_comm]

lemma wallsIn_cons_nonwall {a : Nat × ClientInfo} (t : Clients)
    (h : a.2.ctype ≠ CType.WALL) : wallsIn (a :: t) = wallsIn t := by
  simp [wallsIn, List.filter_cons, h]

lemma wallsIn_eq_zero_iff {m : Clients} :
    wallsIn m = 0 ↔ ∀ e ∈ m, e.2.ctype ≠ CType.WALL := by
  simp only [wallsIn, List.length_eq_zero, List.filter_eq_nil_iff,
    decide_eq_true_eq]

lemma wallsIn_mapSet_nonwall {m : Clients} {k : Nat} {v : ClientInfo}
    (hv : v.ctype ≠ CType.WALL) :
    wallsIn (mapSet m k v) ≤ wallsIn m := by
  by_cases hc : m.any (fun e => e.1 = k) = true
  · unfold mapSet
    rw [if_pos hc]
    clear hc
    induction m with
    | nil => simp [wallsIn]
    | cons a t ih =>
      simp only [List.map_cons]
      by_cases hak : a.1 = k
      · rw [if_pos hak, wallsIn_cons_nonwall _ hv]
        calc wallsIn (t.map _) ≤ wallsIn t := ih
          _ ≤ wallsIn (a :: t) := by
            by_cases haw : a.2.ctype = CType.WALL
            · rw [wallsIn_cons_wall t haw]; omega
            · rw [wallsIn_cons_nonwall t haw]
      · rw [if_neg hak]
        by_cases haw : a.2.ctype = CType.WALL
        · rw [wallsIn_cons_wall _ haw, wallsIn_cons_wall t haw]
          exact Nat.add_le_add_right ih 1
        · rw [wallsIn_cons_nonwall _ haw, wallsIn_cons_nonwall t haw]
          exact ih
  · unfold mapSet
    rw [if_neg hc, wallsIn_append]
    have : wallsIn [(k, v)] = 0 := by simp [wallsIn, List.filter_cons, hv]
    omega

lemma wallsIn_mapSet_wall {m : Clients} {k : Nat} {v : ClientInfo}
    (hm : wallsIn m = 0) (hk : (m.map Prod.fst).Nodup) :
    wallsIn (mapSet m k v) ≤ 1 := by
  have hno : ∀ e ∈ m, e.2.ctype ≠ CType.WALL := wallsIn_eq_zero_iff.1 hm
  by_cases hc : m.any (fun e => e.1 = k) = true
  · unfold mapSet
    rw [if_pos hc]
    clear hc hm
    induction m with
    | nil => simp [wallsIn]
    | cons a t ih =>
      simp only [List.map_cons, List.nodup_cons] at hk ⊢
      obtain ⟨hk1, hk2⟩ := hk
      have hno' : ∀ e ∈ t, e.2.ctype ≠ CType.WALL :=
        fun e he => hno e (List.mem_cons_of_mem a he)
      by_cases hak : a.1 = k
      · rw [if_pos hak]
        have ht : ∀ e ∈ t, e.1 ≠ k := by
          intro e he hek
          exact hk1 (List.mem_map.2 ⟨e, he, by rw [hek, hak]⟩)
        rw [replace_of_not_mem v ht]
        by_cases hvw : v.ctype = CType.WALL
        · rw [wallsIn_cons_wall _ hvw]
          have : wallsIn t = 0 := wallsIn_eq_zero_iff.2 hno'
          omega
        · rw [wallsIn_cons_nonwall _ hvw]
          have : wallsIn t = 0 := wallsIn_eq_zero_iff.2 hno'
          omega
      · rw [if_neg hak]
        rw [wallsIn_cons_nonwall _ (hno a (List.mem_cons_self a t))]
        exact ih hk2 hno'
  · unfold mapSet
    rw [if_neg hc, wallsIn_append]
    have h1 : wallsIn m = 0 := hm
    have h2 : wallsIn [(k, v)] ≤ 1 := by
      by_cases hvw : v.ctype = CType.WALL
      · simp [wallsIn, List.filter_cons, hvw]
      · simp [wallsIn, List.filter_cons, hvw]
    omega

lemma mapDelete_sublist (m : Clients) (k : Nat) :
    List.Sublist (mapDelete m k) m :=
  List.filter_sublist m

lemma mem_mapGet {m : Clients} {k : Nat} {info : ClientInfo}
    (h : mapGet m k = some info) : (k, info) ∈ m := by
  unfold mapGet at h
  rcases Option.map_eq_some'.1 h with ⟨e, he, hinfo⟩
  have hk : e.1 = k := by
    have := List.find?_some he
    simpa using this
  have hm : e ∈ m := List.mem_of_find?_eq_some he
  have : e = (k, info) := by
    cases e
    simp only at hk hinfo
    rw [hk, hinfo]
  rw [← this]
  exact hm

lemma mapGet_eq_none_iff {m : Clients} {k : Nat} :
    mapGet m k = none ↔ ∀ e ∈ m, e.1 ≠ k := by
  unfold mapGet
  simp only [Option.map_eq_none', List.find?_eq_none, decide_eq_true_eq]

lemma wallsIn_mapDelete_le (m : Clients) (k : Nat) :
    wallsIn (mapDelete m k) ≤ wallsIn m := by
  unfold wallsIn
  exact ((mapDelete_sublist m k).filter _).length_le

lemma two_le_length_of_mem {α : Type} [DecidableEq α] {l : List α} {a b : α}
    (ha : a ∈ l) (hb : b ∈ l) (hab : a ≠ b) : 2 ≤ l.length := by
  have hsub : ({a, b} : Finset α) ⊆ l.toFinset := by
    intro x hx
    simp only [Finset.mem_insert, Finset.mem_singleton] at hx
    rcases hx with rfl | rfl
    · exact List.mem_toFinset.2 ha
    · exact List.mem_toFinset.2 hb
  have h2 : ({a, b} : Finset α).card = 2 := Finset.card_pair hab
  calc 2 = ({a, b} : Finset α).card := h2.symm
    _ ≤ l.toFinset.card := Finset.card_le_card hsub
    _ ≤ l.length := l.toFinset_card_le

lemma wallsIn_mapDelete_wall {m : Clients} {ws : Nat} {info : ClientInfo}
    (hget : mapGet m ws = some info) (hW : info.ctype = CType.WALL)
    (hle : wallsIn m ≤ 1) : wallsIn (mapDelete m ws) = 0 := by
  by_contra hne
  have : ∃ e ∈ mapDelete m ws, e.2.ctype = CType.WALL := by
    by_contra hall
    push_neg at hall
    exact hne (wallsIn_eq_zero_iff.2 hall)
  rcases this with ⟨e, he, hew⟩
  have he' := List.mem_filter.1 he
  have hem : e ∈ m := he'.1
  have hek : e.1 ≠ ws := by
    have := he'.2
    simpa using this
  have h1 : e ∈ m.filter (fun e => e.2.ctype = CType.WALL) :=
    List.mem_filter.2 ⟨hem, by simpa using hew⟩
  have h2 : (ws, info) ∈ m.filter (fun e => e.2.ctype = CType.WALL) :=
    List.mem_filter.2 ⟨mem_mapGet hget, by simpa using hW⟩
  have hne2 : e ≠ (ws, info) := by
    intro hcontra
    rw [hcontra] at hek
    exact hek rfl
  have := two_le_length_of_mem h1 h2 hne2
  unfold wallsIn at hle
  omega

/-! ## Invariant preservation -/

lemma inv_insert_wall {st : ServerState} {ws : Nat} (h : Inv st)
    (hreg : st.wallRegistered = false) :
    Inv ⟨mapSet st.clients ws ⟨CType.WALL, st.nextID⟩, true, st.nextID + 1⟩ := by
  obtain ⟨hkeys, huid, hbound, hle, hflag⟩ := h
  have hfresh : ∀ e ∈ st.clients,
      e.2.userID ≠ (⟨CType.WALL, st.nextID⟩ : ClientInfo).userID := by
    intro e he
    have := hbound e he
    simp only
    omega
  refine ⟨keys_nodup_mapSet hkeys, uid_nodup_mapSet hkeys huid hfresh, ?_, ?_, ?_⟩
  · intro e he
    show e.2.userID < st.nextID + 1
    rcases mem_mapSet he with rfl | hm
    · show st.nextID < st.nextID + 1
      omega
    · have := hbound e hm
      omega
  · exact wallsIn_mapSet_wall (hflag hreg) hkeys
  · intro hcontra
    simp at hcontra

lemma inv_insert_nonwall {st : ServerState} {ws : Nat} {ct : CType} (h : Inv st)
    (hct : ct ≠ CType.WALL) :
    Inv ⟨mapSet st.clients ws ⟨ct, st.nextID⟩, st.wallRegistered, st.nextID + 1⟩ := by
  obtain ⟨hkeys, huid, hbound, hle, hflag⟩ := h
  have hfresh : ∀ e ∈ st.clients,
      e.2.userID ≠ (⟨ct, st.nextID⟩ : ClientInfo).userID := by
    intro e he
    have := hbound e he
    simp only
    omega
  have hmono : wallsIn (mapSet st.clients ws ⟨ct, st.nextID⟩) ≤
      wallsIn st.clients := wallsIn_mapSet_nonwall hct
  refine ⟨keys_nodup_mapSet hkeys, uid_nodup_mapSet hkeys huid hfresh, ?_, ?_, ?_⟩
  · intro e he
    show e.2.userID < st.nextID + 1
    rcases mem_mapSet he with rfl | hm
    · show st.nextID < st.nextID + 1
      omega
    · have := hbound e hm
      omega
  · show wallsIn (mapSet st.clients ws ⟨ct, st.nextID⟩) ≤ 1
    have hle' : wallsIn st.clients ≤ 1 := hle
    omega
  · intro hfalse
    show wallsIn (mapSet st.clients ws ⟨ct, st.nextID⟩) = 0
    have h0 : wallsIn st.clients = 0 := hflag hfalse
    omega

lemma inv_delete_wall {st : ServerState} {ws : Nat} {info : ClientInfo}
    (h : Inv st) (hget : mapGet st.clients ws = some info)
    (hW : info.ctype = CType.WALL) :
    Inv ⟨mapDelete st.clients ws, false, st.nextID⟩ := by
  obtain ⟨hkeys, huid, hbound, hle, hflag⟩ := h
  have hsub := mapDelete_sublist st.clients ws
  have h0 : wallsIn (mapDelete st.clients ws) = 0 :=
    wallsIn_mapDelete_wall hget hW hle
  refine ⟨?_, ?_, ?_, ?_, ?_⟩
  · exact List.Nodup.sublist (hsub.map Prod.fst) hkeys
  · exact List.Nodup.sublist (hsub.map (fun e => e.2.userID)) huid
  · intro e he
    exact hbound e (hsub.subset he)
  · show wallsIn (mapDelete st.clients ws) ≤ 1
    omega
  · intro _
    exact h0

lemma inv_delete_other {st : ServerState} {ws : Nat} (h : Inv st) :
    Inv ⟨mapDelete st.clients ws, st.wallRegistered, st.nextID⟩ := by
  obtain ⟨hkeys, huid, hbound, hle, hflag⟩ := h
  have hsub := mapDelete_sublist st.clients ws
  have hmono := wallsIn_mapDelete_le st.clients ws
  refine ⟨?_, ?_, ?_, ?_, ?_⟩
  · exact List.Nodup.sublist (hsub.map Prod.fst) hkeys
  · exact List.Nodup.sublist (hsub.map (fun e => e.2.userID)) huid
  · intro e he
    exact hbound e (hsub.subset he)
  · show wallsIn (mapDelete st.clients ws) ≤ 1
    have hle' : wallsIn st.clients ≤ 1 := hle
    omega
  · intro hfalse
    show wallsIn (mapDelete st.clients ws) = 0
    have h0 : wallsIn st.clients = 0 := hflag hfalse
    omega

lemma inv_handleClientRegistration (st : ServerState) (ws : Nat)
    (c? : Option String) (h : Inv st) :
    Inv (handleClientRegistration st ws c?).1 := by
  unfold handleClientRegistration
  split
  · exact h
  · rename_i ct
    split
    · split
      · exact h
      · rename_i hreg
        have hreg' : st.wallRegistered = false := by
          cases hW : st.wallRegistered
          · rfl
          · exact absurd hW hreg
        have hinv := @inv_insert_wall st ws h hreg'
        dsimp only
        split
        · exact hinv
        · exact hinv
    · split
      · have hct : (if ct = "VR" then CType.VR else CType.DESKTOP) ≠
            CType.WALL := by
          split
          · decide
          · decide
        have hinv := @inv_insert_nonwall st ws
          (if ct = "VR" then CType.VR else CType.DESKTOP) h hct
        dsimp only
        split
        · split
          · exact hinv
          · exact hinv
        · exact hinv
      · exact h

lemma inv_handleMessage (st : ServerState) (ws : Nat) (env : Envelope)
    (h : Inv st) : Inv (handleMessage st ws env).1 := by
  unfold handleMessage
  split
  · exact h
  · split
    · exact inv_handleClientRegistration st ws env.clientType? h
    · split
      · exact h
      · split
        · exact h
        · split
          · split
            · exact h
            · split
              · exact h
              · exact h
          · exact h

lemma inv_handleDisconnection (st : ServerState) (ws : Nat) (h : Inv st) :
    Inv (handleDisconnection st ws).1 := by
  unfold handleDisconnection
  split
  · exact h
  · rename_i info hget
    split
    · rename_i hW
      exact inv_delete_wall h hget hW
    · split
      · split
        · exact inv_delete_other h
        · exact h
      · exact inv_delete_other h

lemma inv_serverStep (st : ServerState) (ev : Event) (h : Inv st) :
    Inv (serverStep st ev).1 := by
  cases ev with
  | message ws raw =>
    cases raw with
    | malformed => exact h
    | parsed env => exact inv_handleMessage st ws env h
  | close ws => exact inv_handleDisconnection st ws h

lemma inv_applyEvents (st : ServerState) (evs : List Event) (h : Inv st) :
    Inv (applyEvents st evs) := by
  induction evs generalizing st with
  | nil => exact h
  | cons ev t ih => exact ih _ (inv_serverStep st ev h)

lemma inv_init : Inv initState := by
  refine ⟨?_, ?_, ?_, ?_, ?_⟩ <;> simp [initState, wallCount, wallsIn]

lemma inv_reach (evs : List Event) : Inv (applyEvents initState evs) :=
  inv_applyEvents _ _ inv_init

lemma wallRegistered_of_wall_mem {st : ServerState} (h : Inv st)
    {ws : Nat} {info : ClientInfo} (hget : mapGet st.clients ws = some info)
    (hW : info.ctype = CType.WALL) : st.wallRegistered = true := by
  obtain ⟨_, _, _, _, hflag⟩ := h
  cases hb : st.wallRegistered
  · exfalso
    have h0 : wallsIn st.clients = 0 := hflag hb
    have hmem : (ws, info) ∈ st.clients := mem_mapGet hget
    have hmemf : (ws, info) ∈ st.clients.filter
        (fun e => e.2.ctype = CType.WALL) :=
      List.mem_filter.2 ⟨hmem, by simpa using hW⟩
    have hne : st.clients.filter (fun e => e.2.ctype = CType.WALL) ≠ [] :=
      List.ne_nil_of_mem hmemf
    have := List.length_eq_zero.1 h0
    exact hne this
  · rfl

/-! ## Step computation lemmas -/

lemma count_key_map_zero {t : Clients} {w : Nat} {msg : ServerMsg}
    (h : ∀ e ∈ t, e.1 ≠ w) :
    ((t.map (fun e => (e.1, msg))).count (w, msg)) = 0 := by
  induction t with
  | nil => rfl
  | cons a s ih =>
    have ha : a.1 ≠ w := h a (List.mem_cons_self a s)
    have hs : ∀ e ∈ s, e.1 ≠ w := fun e he => h e (List.mem_cons_of_mem a he)
    simp only [List.map_cons, List.count_cons, ih hs]
    simp [Prod.ext_iff, ha]

lemma count_key_map_one {l : Clients} (hk : (l.map Prod.fst).Nodup) {w : Nat}
    {i : ClientInfo} (hmem : (w, i) ∈ l) (msg : ServerMsg) :
    ((l.map (fun e => (e.1, msg))).count (w, msg)) = 1 := by
  induction l with
  | nil => cases hmem
  | cons a t ih =>
    simp only [List.map_cons, List.nodup_cons] at hk
    obtain ⟨hk1, hk2⟩ := hk
    rcases List.mem_cons.1 hmem with rfl | hmt
    · have ht : ∀ e ∈ t, e.1 ≠ (w, i).1 := by
        intro e he hew
        exact hk1 (List.mem_map.2 ⟨e, he, hew.symm ▸ rfl⟩)
      simp only [List.map_cons, List.count_cons, count_key_map_zero ht]
      simp
    · have haw : a.1 ≠ w := by
        intro hcontra
        exact hk1 (List.mem_map.2 ⟨(w, i), hmt, hcontra.symm⟩)
      simp only [List.map_cons, List.count_cons, ih hk2 hmt]
      simp [Prod.ext_iff, haw]

lemma find_wall_mapSet {m : Clients} {ws n : Nat} (hm : wallsIn m = 0) :
    ((mapSet m ws ⟨CType.WALL, n⟩).find?
      (fun e => e.2.ctype = CType.WALL)) = some (ws, ⟨CType.WALL, n⟩) := by
  have hno := wallsIn_eq_zero_iff.1 hm
  by_cases hc : m.any (fun e => e.1 = ws) = true
  · unfold mapSet
    rw [if_pos hc]
    clear hm
    induction m with
    | nil => simp at hc
    | cons a t ih =>
      have hno' : ∀ e ∈ t, e.2.ctype ≠ CType.WALL :=
        fun e he => hno e (List.mem_cons_of_mem a he)
      by_cases hak : a.1 = ws
      · simp [List.find?, hak]
      · have hanw : ¬ (a.2.ctype = CType.WALL) :=
          hno a (List.mem_cons_self a t)
        have hct : t.any (fun e => e.1 = ws) = true := by
          simp only [List.any_cons, decide_eq_true_eq] at hc
          rcases Bool.or_eq_true_iff.1 hc with h1 | h1
          · exact absurd (of_decide_eq_true h1) hak
          · exact h1
        simp only [List.map_cons, List.find?, if_neg hak]
        rw [decide_eq_false hanw]
        exact ih hno' hct
  · have hk : ∀ e ∈ m, e.1 ≠ ws := by
      simp only [List.any_eq_true, decide_eq_true_eq] at hc
      intro e he hek
      exact hc ⟨e, he, hek⟩
    rw [mapSet_of_not_mem _ hk, List.find?_append]
    have hnone : m.find? (fun e => e.2.ctype = CType.WALL) = none := by
      rw [List.find?_eq_none]
      intro e he
      simpa using hno e he
    rw [hnone]
    simp [List.find?]

lemma getWallClient_insert {m : Clients} {ws n k : Nat} (hm : wallsIn m = 0) :
    getWallClient ⟨mapSet m ws ⟨CType.WALL, n⟩, true, k⟩ = some ws := by
  unfold getWallClient
  rw [if_pos rfl]
  simp only
  rw [find_wall_mapSet hm]
  rfl

lemma mapGet_mapSet_self (m : Clients) (ws : Nat) (v : ClientInfo) :
    mapGet (mapSet m ws v) ws = some v := by
  by_cases hc : m.any (fun e => e.1 = ws) = true
  · unfold mapSet
    rw [if_pos hc]
    induction m with
    | nil => simp at hc
    | cons a t ih =>
      by_cases hak : a.1 = ws
      · simp [mapGet, List.find?, hak]
      · have hct : t.any (fun e => e.1 = ws) = true := by
          simp only [List.any_cons, decide_eq_true_eq] at hc
          rcases Bool.or_eq_true_iff.1 hc with h1 | h1
          · exact absurd (of_decide_eq_true h1) hak
          · exact h1
        simp only [mapGet, List.map_cons, List.find?, if_neg hak] at ih ⊢
        rw [decide_eq_false hak]
        exact ih hct
  · have hk : ∀ e ∈ m, e.1 ≠ ws := by
      simp only [List.any_eq_true, decide_eq_true_eq] at hc
      intro e he hek
      exact hc ⟨e, he, hek⟩
    rw [mapSet_of_not_mem _ hk]
    unfold mapGet
    rw [List.find?_append]
    have hnone : m.find? (fun e => e.1 = ws) = none := by
      rw [List.find?_eq_none]
      intro e he
      simpa using hk e he
    rw [hnone]
    simp [List.find?]

lemma length_mapSet_mem {m : Clients} {ws : Nat} (v : ClientInfo)
    {i : ClientInfo} (h : (ws, i) ∈ m) :
    (mapSet m ws v).length = m.length := by
  have hc : m.any (fun e => e.1 = ws) = true := by
    simp only [List.any_eq_true, decide_eq_true_eq]
    exact ⟨(ws, i), h, rfl⟩
  unfold mapSet
  rw [if_pos hc, List.length_map]

lemma registration_state_cases (st : ServerState) (ws : Nat)
    (c? : Option String) :
    (handleClientRegistration st ws c?).1.clients = st.clients ∨
    ∃ v : ClientInfo, (handleClientRegistration st ws c?).1.clients =
      mapSet st.clients ws v := by
  unfold handleClientRegistration
  split
  · exact Or.inl rfl
  · split
    · split
      · exact Or.inl rfl
      · dsimp only
        split
        · exact Or.inr ⟨_, rfl⟩
        · exact Or.inr ⟨_, rfl⟩
    · split
      · dsimp only
        split
        · split
          · exact Or.inr ⟨_, rfl⟩
          · exact Or.inr ⟨_, rfl⟩
        · exact Or.inr ⟨_, rfl⟩
      · exact Or.inl rfl

lemma register_wall_rejected {st : ServerState} (h : st.wallRegistered = true)
    (ws : Nat) (p : String) :
    serverStep st (Event.message ws
      (Raw.parsed ⟨some "REGISTER_CLIENT", some "WALL", p⟩)) =
    (st, [(ws, ServerMsg.regError "Wall client already registered")]) := by
  simp [serverStep, handleMessage, handleClientRegistration, h]

lemma register_wall_succeeds {st : ServerState} (hreg : st.wallRegistered = false)
    (hz : wallsIn st.clients = 0) (ws : Nat) (p : String) :
    serverStep st (Event.message ws
      (Raw.parsed ⟨some "REGISTER_CLIENT", some "WALL", p⟩)) =
    (⟨mapSet st.clients ws ⟨CType.WALL, st.nextID⟩, true, st.nextID + 1⟩,
     (ws, ServerMsg.regSuccess "Successfully registered as WALL client") ::
       ((mapSet st.clients ws ⟨CType.WALL, st.nextID⟩).filter
          (fun e => e.2.ctype ≠ CType.WALL)).map
         (fun e => (ws, ServerMsg.newClient e.2.ctype e.2.userID))) := by
  have hgw := @getWallClient_insert st.clients ws st.nextID (st.nextID + 1) hz
  simp [serverStep, handleMessage, handleClientRegistration, hreg, hgw]

lemma wall_close_step {st : ServerState} {wsW : Nat} {info : ClientInfo}
    (hget : mapGet st.clients wsW = some info) (hW : info.ctype = CType.WALL)
    (hreg : st.wallRegistered = true) :
    serverStep st (Event.close wsW) =
      (⟨mapDelete st.clients wsW, false, st.nextID⟩,
       (st.clients.filter (fun e => e.2.ctype = CType.VR)).map
         (fun e => (e.1, ServerMsg.wallDisconnected))) := by
  simp [serverStep, handleDisconnection, hget, hW, hreg]

/-! ## Claim theorems: relay server -/

/-- Claim C1: for every sequence of registration attempts handled by the
relay, at most one connection holds the `WALL` role at any time, and a
`REGISTER_CLIENT` claiming `WALL` that arrives while a display is
registered is answered `REGISTRATION_ERROR`, with the state (hence the
incumbent's entry) unchanged. -/
theorem wall_role_exclusive (evs : List Event) :
    wallCount (applyEvents initState evs) ≤ 1 ∧
    ∀ wsW info, mapGet (applyEvents initState evs).clients wsW = some info →
      info.ctype = CType.WALL →
      ∀ ws p, serverStep (applyEvents initState evs)
          (Event.message ws
            (Raw.parsed ⟨some "REGISTER_CLIENT", some "WALL", p⟩)) =
        (applyEvents initState evs,
         [(ws, ServerMsg.regError "Wall client already registered")]) := by
  have hinv := inv_reach evs
  refine ⟨hinv.2.2.2.1, ?_⟩
  intro wsW info hget hW ws p
  exact register_wall_rejected (wallRegistered_of_wall_mem hinv hget hW) ws p

/-- Witness for C1: after a wall registers from socket 0, a second
`WALL` registration from socket 1 is rejected and changes nothing. -/
theorem wall_role_exclusive_witness :
    serverStep (applyEvents initState
        [Event.message 0 (Raw.parsed ⟨some "REGISTER_CLIENT", some "WALL", "x"⟩)])
      (Event.message 1 (Raw.parsed ⟨some "REGISTER_CLIENT", some "WALL", "x"⟩)) =
    (applyEvents initState
        [Event.message 0 (Raw.parsed ⟨some "REGISTER_CLIENT", some "WALL", "x"⟩)],
     [(1, ServerMsg.regError "Wall client already registered")]) :=
  (wall_role_exclusive
    [Event.message 0 (Raw.parsed ⟨some "REGISTER_CLIENT", some "WALL", "x"⟩)]).2
    0 ⟨CType.WALL, 0⟩ rfl rfl 1 "x"

/-- Claim C2: when the registered wall's socket closes, the relay sends
`WALL_DISCONNECTED` exactly once to every registered `VR` client,
removes the wall's entry, clears `wallRegistered`, and a `WALL`
registration attempted immediately afterwards succeeds (success reply
first, wall entry stored). -/
theorem wall_disconnect_resets (evs : List Event) (wsW : Nat)
    (info : ClientInfo) :
    let st := applyEvents initState evs
    mapGet st.clients wsW = some info → info.ctype = CType.WALL →
    serverStep st (Event.close wsW) =
      (⟨mapDelete st.clients wsW, false, st.nextID⟩,
       (st.clients.filter (fun e => e.2.ctype = CType.VR)).map
         (fun e => (e.1, ServerMsg.wallDisconnected))) ∧
    (∀ w i, (w, i) ∈ st.clients → i.ctype = CType.VR →
      ((serverStep st (Event.close wsW)).2.count
        (w, ServerMsg.wallDisconnected)) = 1) ∧
    mapGet (serverStep st (Event.close wsW)).1.clients wsW = none ∧
    (∀ ws2 p,
      ((serverStep (serverStep st (Event.close wsW)).1 (Event.message ws2
          (Raw.parsed ⟨some "REGISTER_CLIENT", some "WALL", p⟩))).2.head? =
        some (ws2, ServerMsg.regSuccess
          "Successfully registered as WALL client")) ∧
      mapGet (serverStep (serverStep st (Event.close wsW)).1 (Event.message ws2
          (Raw.parsed ⟨some "REGISTER_CLIENT", some "WALL", p⟩))).1.clients ws2 =
        some ⟨CType.WALL, st.nextID⟩) := by
  intro st hget hW
  have hinv := inv_reach evs
  have hreg : st.wallRegistered = true :=
    wallRegistered_of_wall_mem hinv hget hW
  have hstep := wall_close_step hget hW hreg
  refine ⟨hstep, ?_, ?_, ?_⟩
  · intro w i hm hVR
    rw [hstep]
    have hk : ((st.clients.filter
        (fun e => e.2.ctype = CType.VR)).map Prod.fst).Nodup :=
      List.Nodup.sublist ((List.filter_sublist _).map Prod.fst) hinv.1
    have hmem : (w, i) ∈ st.clients.filter (fun e => e.2.ctype = CType.VR) :=
      List.mem_filter.2 ⟨hm, by simpa using hVR⟩
    exact count_key_map_one hk hmem _
  · rw [hstep]
    rw [mapGet_eq_none_iff]
    intro e he
    have := (List.mem_filter.1 he).2
    simpa using this
  · intro ws2 p
    rw [hstep]
    have hz : wallsIn (mapDelete st.clients wsW) = 0 :=
      wallsIn_mapDelete_wall hget hW hinv.2.2.2.1
    have hsucc := @register_wall_succeeds
      ⟨mapDelete st.clients wsW, false, st.nextID⟩ rfl hz ws2 p
    constructor
    · rw [hsucc]
      rfl
    · rw [hsucc]
      exact mapGet_mapSet_self _ ws2 _

/-- Witness for C2: wall on socket 0, VR client on socket 1; the wall
closes and a fresh wall registration on socket 2 succeeds. -/
theorem wall_disconnect_resets_witness :
    let evs := [Event.message 0
        (Raw.parsed ⟨some "REGISTER_CLIENT", some "WALL", "x"⟩),
      Event.message 1 (Raw.parsed ⟨some "REGISTER_CLIENT", some "VR", "x"⟩)]
    let st := applyEvents initState evs
    ((serverStep st (Event.close 0)).2.count
      (1, ServerMsg.wallDisconnected)) = 1 ∧
    mapGet (serverStep st (Event.close 0)).1.clients 0 = none ∧
    mapGet (serverStep (serverStep st (Event.close 0)).1 (Event.message 2
        (Raw.parsed ⟨some "REGISTER_CLIENT", some "WALL", "y"⟩))).1.clients 2 =
      some ⟨CType.WALL, st.nextID⟩ := by
  refine ⟨?_, ?_, ?_⟩
  · exact (wall_disconnect_resets
      [Event.message 0 (Raw.parsed ⟨some "REGISTER_CLIENT", some "WALL", "x"⟩),
       Event.message 1 (Raw.parsed ⟨some "REGISTER_CLIENT", some "VR", "x"⟩)]
      0 ⟨CType.WALL, 0⟩ rfl rfl).2.1 1 ⟨CType.VR, 1⟩ (by decide) rfl
  · exact (wall_disconnect_resets
      [Event.message 0 (Raw.parsed ⟨some "REGISTER_CLIENT", some "WALL", "x"⟩),
       Event.message 1 (Raw.parsed ⟨some "REGISTER_CLIENT", some "VR", "x"⟩)]
      0 ⟨CType.WALL, 0⟩ rfl rfl).2.2.1
  · exact ((wall_disconnect_resets
      [Event.message 0 (Raw.parsed ⟨some "REGISTER_CLIENT", some "WALL", "x"⟩),
       Event.message 1 (Raw.parsed ⟨some "REGISTER_CLIENT", some "VR", "x"⟩)]
      0 ⟨CType.WALL, 0⟩ rfl rfl).2.2.2 2 "y").2

/-- Claim C3: a `WALL` registering on a fresh socket while `N`
non-display clients are registered (and no wall is) is answered with
`REGISTRATION_SUCCESS` followed by exactly one `NEW_CLIENT` message per
existing client, in table order, each carrying that client's role and
`userID`, with no duplicates (the message list is a map over the table
and is `Nodup`) and no other messages. -/
theorem late_display_catch_up (evs : List Event) (ws : Nat) (p : String) :
    let st := applyEvents initState evs
    st.wallRegistered = false → mapGet st.clients ws = none →
    (∀ e ∈ st.clients, e.2.ctype ≠ CType.WALL) ∧
    serverStep st (Event.message ws
        (Raw.parsed ⟨some "REGISTER_CLIENT", some "WALL", p⟩)) =
      (⟨st.clients ++ [(ws, ⟨CType.WALL, st.nextID⟩)], true, st.nextID + 1⟩,
       (ws, ServerMsg.regSuccess "Successfully registered as WALL client") ::
         st.clients.map (fun e => (ws, ServerMsg.newClient e.2.ctype e.2.userID))) ∧
    (st.clients.map (fun e => (ws, ServerMsg.newClient e.2.ctype e.2.userID))).length
      = st.clients.length ∧
    (st.clients.map (fun e => (ws, ServerMsg.newClient e.2.ctype e.2.userID))).Nodup := by
  intro st hreg hnone
  have hinv := inv_reach evs
  have hz : wallsIn st.clients = 0 := hinv.2.2.2.2 hreg
  have hno : ∀ e ∈ st.clients, e.2.ctype ≠ CType.WALL :=
    wallsIn_eq_zero_iff.1 hz
  have hk : ∀ e ∈ st.clients, e.1 ≠ ws := mapGet_eq_none_iff.1 hnone
  refine ⟨hno, ?_, List.length_map _ _, ?_⟩
  · have hstep := register_wall_succeeds hreg hz ws p
    rw [hstep, mapSet_of_not_mem _ hk]
    have hfilter : ((st.clients ++
          [(ws, (⟨CType.WALL, st.nextID⟩ : ClientInfo))]).filter
        (fun e => e.2.ctype ≠ CType.WALL)) = st.clients := by
      rw [List.filter_append]
      have h1 : st.clients.filter (fun e => e.2.ctype ≠ CType.WALL) =
          st.clients :=
        List.filter_eq_self.2 (fun e he => by simpa using hno e he)
      rw [h1]
      simp
    rw [hfilter]
  · have hentries : st.clients.Nodup := List.Nodup.of_map _ hinv.1
    have hinj := List.inj_on_of_nodup_map hinv.2.1
    refine List.Nodup.map_on ?_ hentries
    intro x hx y hy hxy
    have h2 : ServerMsg.newClient x.2.ctype x.2.userID =
        ServerMsg.newClient y.2.ctype y.2.userID := congrArg Prod.snd hxy
    have h3 : x.2.userID = y.2.userID := by injection h2
    exact hinj hx hy h3

/-- Witness for C3: two VR clients then a DESKTOP registered; a wall
registering afterwards gets exactly the three `NEW_CLIENT` messages. -/
theorem late_display_catch_up_witness :
    let evs := [Event.message 1
        (Raw.parsed ⟨some "REGISTER_CLIENT", some "VR", "x"⟩),
      Event.message 2 (Raw.parsed ⟨some "REGISTER_CLIENT", some "VR", "x"⟩),
      Event.message 3 (Raw.parsed ⟨some "REGISTER_CLIENT", some "DESKTOP", "x"⟩)]
    let st := applyEvents initState evs
    serverStep st (Event.message 9
        (Raw.parsed ⟨some "REGISTER_CLIENT", some "WALL", "y"⟩)) =
      (⟨st.clients ++ [(9, ⟨CType.WALL, st.nextID⟩)], true, st.nextID + 1⟩,
       (9, ServerMsg.regSuccess "Successfully registered as WALL client") ::
         st.clients.map (fun e => (9, ServerMsg.newClient e.2.ctype e.2.userID))) :=
  ((late_display_catch_up
    [Event.message 1 (Raw.parsed ⟨some "REGISTER_CLIENT", some "VR", "x"⟩),
     Event.message 2 (Raw.parsed ⟨some "REGISTER_CLIENT", some "VR", "x"⟩),
     Event.message 3 (Raw.parsed ⟨some "REGISTER_CLIENT", some "DESKTOP", "x"⟩)]
    9 "y") rfl rfl).2.1

/-- Claim C5 (code-level behaviour): a `GAME_EVENT` envelope, from any
socket and in any server state, falls into `handleMessage`'s `default`
branch: the sender is answered `ERROR "Data type has no matches"` and
nothing is forwarded to anyone. -/
theorem game_event_rejected_not_forwarded (st : ServerState) (ws : Nat)
    (c? : Option String) (p : String) :
    serverStep st (Event.message ws (Raw.parsed ⟨some "GAME_EVENT", c?, p⟩)) =
      (st, [(ws, ServerMsg.error "Data type has no matches")]) := by
  simp [serverStep, handleMessage]

/-- Claim C6: the handling of any single inbound message is a total
step that recovers every per-message error with an `ERROR` reply to the
sender — malformed JSON, a missing `type`, an unrecognized `type`, a
`REGISTER_CLIENT` without a client type, and a `VR_CONTROLLER_STATE`
from an unregistered socket (whose thrown exception the `try/catch`
converts into a reply) — and processing of subsequent events continues
from the resulting state. -/
theorem per_message_error_recovered (st : ServerState) (ws : Nat) (raw : Raw) :
    (raw = Raw.malformed →
      serverStep st (Event.message ws raw) =
        (st, [(ws, ServerMsg.error "Invalid JSON format")])) ∧
    (∀ c? p, raw = Raw.parsed ⟨none, c?, p⟩ →
      serverStep st (Event.message ws raw) =
        (st, [(ws, ServerMsg.error "No data type specified")])) ∧
    (∀ t c? p, raw = Raw.parsed ⟨some t, c?, p⟩ →
      t ≠ "REGISTER_CLIENT" → t ≠ "ERROR" → t ≠ "WALL_CALIBRATION" →
      t ≠ "VR_CONTROLLER_STATE" →
      serverStep st (Event.message ws raw) =
        (st, [(ws, ServerMsg.error "Data type has no matches")])) ∧
    (∀ p, raw = Raw.parsed ⟨some "REGISTER_CLIENT", none, p⟩ →
      serverStep st (Event.message ws raw) =
        (st, [(ws, ServerMsg.error "Client type is required")])) ∧
    (∀ c? p, raw = Raw.parsed ⟨some "VR_CONTROLLER_STATE", c?, p⟩ →
      mapGet st.clients ws = none →
      serverStep st (Event.message ws raw) =
        (st, [(ws, ServerMsg.error "Invalid JSON format")])) ∧
    (∀ evs, applyEvents st (Event.message ws raw :: evs) =
      applyEvents (serverStep st (Event.message ws raw)).1 evs) := by
  refine ⟨?_, ?_, ?_, ?_, ?_, ?_⟩
  · rintro rfl
    rfl
  · rintro c? p rfl
    rfl
  · rintro t c? p rfl h1 h2 h3 h4
    simp [serverStep, handleMessage, h1, h2, h3, h4]
  · rintro p rfl
    rfl
  · rintro c? p rfl hget
    simp [serverStep, handleMessage, hget]
  · intro evs
    rfl

/-- Witness for C6: malformed JSON and an unregistered
`VR_CONTROLLER_STATE` sender each get an error reply, state unchanged. -/
theorem per_message_error_recovered_witness :
    (serverStep initState (Event.message 7 Raw.malformed) =
      (initState, [(7, ServerMsg.error "Invalid JSON format")])) ∧
    (serverStep initState (Event.message 7
        (Raw.parsed ⟨some "VR_CONTROLLER_STATE", none, "s"⟩)) =
      (initState, [(7, ServerMsg.error "Invalid JSON format")])) :=
  ⟨(per_message_error_recovered initState 7 Raw.malformed).1 rfl,
   (per_message_error_recovered initState 7
      (Raw.parsed ⟨some "VR_CONTROLLER_STATE", none, "s"⟩)).2.2.2.2.1
     none "s" rfl rfl⟩

/-- Counterexample to C7 as stated: a connection registered as `VR`
re-sends `REGISTER_CLIENT`; the request is neither rejected nor
ignored — the server replies `REGISTRATION_SUCCESS` again and replaces
the connection's entry with a fresh `userID` (0 becomes 1). -/
theorem reregistration_accepted_again :
    (mapGet (applyEvents initState
        [Event.message 1 (Raw.parsed ⟨some "REGISTER_CLIENT", some "VR", "m"⟩)]).clients
      1 = some ⟨CType.VR, 0⟩) ∧
    serverStep (applyEvents initState
        [Event.message 1 (Raw.parsed ⟨some "REGISTER_CLIENT", some "VR", "m"⟩)])
      (Event.message 1 (Raw.parsed ⟨some "REGISTER_CLIENT", some "VR", "m"⟩)) =
      (⟨[(1, ⟨CType.VR, 1⟩)], false, 2⟩,
       [(1, ServerMsg.regSuccess "Successfully registered as VR client")]) := by
  constructor
  · rfl
  · rfl

/-- Claim C7 (amended): re-sending `REGISTER_CLIENT` on an
already-registered connection is processed again (a `WALL` claim is
rejected while a wall is registered; a `VR`/`DESKTOP` claim is
accepted, replacing the entry with a fresh `userID`), but the client
table never gains a second entry for that connection: its keys stay
`Nodup` and its size is unchanged by the re-registration. -/
theorem reregistration_single_entry (evs : List Event) :
    ((applyEvents initState evs).clients.map Prod.fst).Nodup ∧
    ∀ ws info c? p,
      mapGet (applyEvents initState evs).clients ws = some info →
      (((serverStep (applyEvents initState evs) (Event.message ws
          (Raw.parsed ⟨some "REGISTER_CLIENT", c?, p⟩))).1.clients.map
        Prod.fst).Nodup ∧
       (serverStep (applyEvents initState evs) (Event.message ws
          (Raw.parsed ⟨some "REGISTER_CLIENT", c?, p⟩))).1.clients.length =
        (applyEvents initState evs).clients.length) := by
  have hinv := inv_reach evs
  refine ⟨hinv.1, ?_⟩
  intro ws info c? p hget
  have hsm : (serverStep (applyEvents initState evs) (Event.message ws
      (Raw.parsed ⟨some "REGISTER_CLIENT", c?, p⟩))).1 =
      (handleClientRegistration (applyEvents initState evs) ws c?).1 := by
    simp [serverStep, handleMessage]
  rcases registration_state_cases (applyEvents initState evs) ws c? with hc | ⟨v, hc⟩
  · rw [hsm, hc]
    exact ⟨hinv.1, rfl⟩
  · rw [hsm, hc]
    exact ⟨keys_nodup_mapSet hinv.1, length_mapSet_mem v (mem_mapGet hget)⟩

/-- Witness for C7's amended claim, at a registered VR connection
re-sending its registration. -/
theorem reregistration_single_entry_witness :
    (((serverStep (applyEvents initState
        [Event.message 1 (Raw.parsed ⟨some "REGISTER_CLIENT", some "VR", "m"⟩)])
        (Event.message 1
          (Raw.parsed ⟨some "REGISTER_CLIENT", some "VR", "m"⟩))).1.clients.map
      Prod.fst).Nodup ∧
     (serverStep (applyEvents initState
        [Event.message 1 (Raw.parsed ⟨some "REGISTER_CLIENT", some "VR", "m"⟩)])
        (Event.message 1
          (Raw.parsed ⟨some "REGISTER_CLIENT", some "VR", "m"⟩))).1.clients.length =
      (applyEvents initState
        [Event.message 1 (Raw.parsed ⟨some "REGISTER_CLIENT", some "VR", "m"⟩)]).clients.length) :=
  (reregistration_single_entry
    [Event.message 1 (Raw.parsed ⟨some "REGISTER_CLIENT", some "VR", "m"⟩)]).2
    1 ⟨CType.VR, 0⟩ (some "VR") "m" rfl

/-- Claim C10: the relay routes `WALL_CALIBRATION` and
`VR_CONTROLLER_STATE` purely by message type, never consulting the
sender's registered role: `WALL_CALIBRATION` from any socket (even an
unregistered one) fans out to every registered `VR` client, and
`VR_CONTROLLER_STATE` from any registered socket of any role is relayed
to the wall with the sender's `userID` attached. -/
theorem routing_ignores_sender_role (st : ServerState) (ws : Nat)
    (c? : Option String) (p : String) :
    serverStep st (Event.message ws
        (Raw.parsed ⟨some "WALL_CALIBRATION", c?, p⟩)) =
      (st, (st.clients.filter (fun e => e.2.ctype = CType.VR)).map
        (fun e => (e.1, ServerMsg.wallCalibration p))) ∧
    (∀ info w, mapGet st.clients ws = some info → getWallClient st = some w →
      serverStep st (Event.message ws
          (Raw.parsed ⟨some "VR_CONTROLLER_STATE", c?, p⟩)) =
        (st, [(w, ServerMsg.vrControllerState p info.userID)])) := by
  constructor
  · simp [serverStep, handleMessage]
  · intro info w hget hw
    simp [serverStep, handleMessage, hget, hw]

/-- Witness for C10: a registered DESKTOP (not VR) sender's
`VR_CONTROLLER_STATE` is relayed to the wall with its `userID`. -/
theorem routing_ignores_sender_role_witness :
    serverStep
      ⟨[(0, ⟨CType.WALL, 0⟩), (1, ⟨CType.DESKTOP, 1⟩), (2, ⟨CType.VR, 2⟩)],
        true, 3⟩
      (Event.message 1 (Raw.parsed ⟨some "VR_CONTROLLER_STATE", none, "s"⟩)) =
      (⟨[(0, ⟨CType.WALL, 0⟩), (1, ⟨CType.DESKTOP, 1⟩), (2, ⟨CType.VR, 2⟩)],
        true, 3⟩,
       [(0, ServerMsg.vrControllerState "s" 1)]) :=
  (routing_ignores_sender_role
    ⟨[(0, ⟨CType.WALL, 0⟩), (1, ⟨CType.DESKTOP, 1⟩), (2, ⟨CType.VR, 2⟩)],
      true, 3⟩ 1 none "s").2 ⟨CType.DESKTOP, 1⟩ 0 rfl rfl

/-! ## Vector lemmas -/

lemma dot_self_nonneg (v : Vec3) : 0 ≤ v.dot v := by
  have ha := mul_self_nonneg v.x
  have hb := mul_self_nonneg v.y
  have hc := mul_self_nonneg v.z
  unfold Vec3.dot
  linarith

lemma length_nonneg (v : Vec3) : 0 ≤ v.length :=
  Real.sqrt_nonneg _

lemma length_smul (c : ℝ) (v : Vec3) :
    (Vec3.smul c v).length = |c| * v.length := by
  unfold Vec3.length Vec3.smul Vec3.dot
  simp only
  rw [show c * v.x * (c * v.x) + c * v.y * (c * v.y) + c * v.z * (c * v.z) =
    c ^ 2 * (v.x * v.x + v.y * v.y + v.z * v.z) by ring]
  rw [Real.sqrt_mul (sq_nonneg c), Real.sqrt_sq_eq_abs]

lemma eq_zero_of_length_eq_zero {v : Vec3} (h : v.length = 0) :
    v = ⟨0, 0, 0⟩ := by
  unfold Vec3.length at h
  have h0 : v.dot v = 0 := by
    have := Real.sqrt_eq_zero (dot_self_nonneg v)
    exact this.1 h
  unfold Vec3.dot at h0
  have ha := mul_self_nonneg v.x
  have hb := mul_self_nonneg v.y
  have hc := mul_self_nonneg v.z
  have hx : v.x * v.x = 0 := by linarith
  have hy : v.y * v.y = 0 := by linarith
  have hz : v.z * v.z = 0 := by linarith
  cases v
  simp only [Vec3.mk.injEq]
  exact ⟨mul_self_eq_zero.1 hx, mul_self_eq_zero.1 hy, mul_self_eq_zero.1 hz⟩

lemma add_sub_cancel_vec (a w : Vec3) : (a.add w).sub a = w := by
  cases a
  cases w
  simp only [Vec3.add, Vec3.sub, Vec3.mk.injEq]
  refine ⟨?_, ?_, ?_⟩ <;> ring

lemma smul_zero_vec (c : ℝ) : Vec3.smul c ⟨0, 0, 0⟩ = ⟨0, 0, 0⟩ := by
  simp only [Vec3.smul, Vec3.mk.injEq]
  norm_num

lemma add_zero_vec (a : Vec3) : a.add ⟨0, 0, 0⟩ = a := by
  cases a
  simp only [Vec3.add, Vec3.mk.injEq]
  norm_num

lemma sub_eq_zero_vec {a b : Vec3} (h : a.sub b = ⟨0, 0, 0⟩) : a = b := by
  cases a
  cases b
  simp only [Vec3.sub, Vec3.mk.injEq] at h ⊢
  obtain ⟨h1, h2, h3⟩ := h
  exact ⟨by linarith, by linarith, by linarith⟩

lemma applyEdit_scale_topLeft (startTL startBR startCtrl curr : Vec3)
    (s : RectState) :
    (applyEdit startTL startBR
        (EditAction.scale Corner.topLeft startCtrl curr) s).topLeft =
      startBR.add (Vec3.smul
        (Real.exp (1 * (((curr.sub startCtrl).dot
            ((startTL.sub startBR).normalize)) /
          max 0.001 (startTL.sub startBR).length)))
        (startTL.sub startBR)) := rfl

lemma applyEdit_scale_bottomRight (startTL startBR startCtrl curr : Vec3)
    (s : RectState) :
    (applyEdit startTL startBR
        (EditAction.scale Corner.bottomRight startCtrl curr) s).bottomRight =
      startTL.add (Vec3.smul
        (Real.exp (1 * (((curr.sub startCtrl).dot
            ((startBR.sub startTL).normalize)) /
          max 0.001 (startBR.sub startTL).length)))
        (startBR.sub startTL)) := rfl

/-! ## Claim theorems: calibration coordinator -/

/-- Claim C8: after every edit (translate, rotate, or scale) the frame
update recomputes `rectXDistance` from the edited corners' XZ distance
and sets `rectYDistance = rectXDistance / aspectRatio` with the
aspect ratio of the incoming state — which `handleCalibration` derived
from the display's reported pixel width/height — and no edit ever
changes `aspectRatio` (it is never re-derived from the corners). -/
theorem aspect_ratio_pinned (startTL startBR : Vec3) (act : EditAction)
    (s : RectState) (w h : ℝ) :
    ((grabFrameUpdate startTL startBR act s).aspectRatio = s.aspectRatio) ∧
    ((grabFrameUpdate startTL startBR act s).rectXDistance =
      Real.sqrt
        (((grabFrameUpdate startTL startBR act s).bottomRight.x -
            (grabFrameUpdate startTL startBR act s).topLeft.x) *
          ((grabFrameUpdate startTL startBR act s).bottomRight.x -
            (grabFrameUpdate startTL startBR act s).topLeft.x) +
         ((grabFrameUpdate startTL startBR act s).bottomRight.z -
            (grabFrameUpdate startTL startBR act s).topLeft.z) *
          ((grabFrameUpdate startTL startBR act s).bottomRight.z -
            (grabFrameUpdate startTL startBR act s).topLeft.z))) ∧
    ((grabFrameUpdate startTL startBR act s).rectYDistance =
      (grabFrameUpdate startTL startBR act s).rectXDistance / s.aspectRatio) ∧
    ((handleCalibrationSeed w h).aspectRatio = w / h) := by
  cases act with
  | translate a b c d => exact ⟨rfl, rfl, rfl, rfl⟩
  | rotate a b c => exact ⟨rfl, rfl, rfl, rfl⟩
  | scale corner a b =>
    cases corner
    · exact ⟨rfl, rfl, rfl, rfl⟩
    · exact ⟨rfl, rfl, rfl, rfl⟩

/-- Counterexample to C9 as stated: a scale manipulation with
anchor-to-corner distance `d = 1/2000` (nonzero, so not the degenerate
case) and projected controller motion `1/1000` moves the corner to
distance `exp 1 * d` — the code divides by `max 0.001 d` — whereas the
claimed factor `exp(k * projected / d)` would give `exp 2 * d`. -/
theorem scale_formula_counterexample :
    let startTL : Vec3 := ⟨1/2000, 0, 0⟩
    let startBR : Vec3 := ⟨0, 0, 0⟩
    let s0 : RectState := ⟨startTL, startBR, 0, 0, 1⟩
    let s1 := grabFrameUpdate startTL startBR
      (EditAction.scale Corner.topLeft ⟨0, 0, 0⟩ ⟨1/1000, 0, 0⟩) s0
    let d := (startTL.sub startBR).length
    let projected := ((⟨1/1000, 0, 0⟩ : Vec3).sub ⟨0, 0, 0⟩).dot
      ((startTL.sub startBR).normalize)
    d = 1/2000 ∧ projected = 1/1000 ∧
    ((s1.topLeft.sub startBR).length = Real.exp 1 * d) ∧
    ((s1.topLeft.sub startBR).length ≠ Real.exp (1 * (projected / d)) * d) := by
  intro startTL startBR s0 s1 d projected
  have hsub : startTL.sub startBR = ⟨1/2000, 0, 0⟩ := by
    simp only [Vec3.sub, Vec3.mk.injEq]
    norm_num
  have hd : d = 1/2000 := by
    show (startTL.sub startBR).length = 1/2000
    rw [hsub]
    unfold Vec3.length Vec3.dot
    simp only
    rw [show (1/2000 : ℝ) * (1/2000) + 0 * 0 + 0 * 0 = (1/2000)^2 by ring]
    rw [Real.sqrt_sq (by norm_num)]
  have hnorm : (startTL.sub startBR).normalize = ⟨1, 0, 0⟩ := by
    unfold Vec3.normalize
    rw [show (startTL.sub startBR).length = 1/2000 from hd]
    rw [if_neg (by norm_num)]
    rw [hsub]
    simp only [Vec3.smul, Vec3.mk.injEq]
    norm_num
  have hproj : projected = 1/1000 := by
    show ((⟨1/1000, 0, 0⟩ : Vec3).sub ⟨0, 0, 0⟩).dot
      ((startTL.sub startBR).normalize) = 1/1000
    rw [hnorm]
    simp only [Vec3.sub, Vec3.dot]
    norm_num
  have hmax : max (0.001 : ℝ) d = 1/1000 := by
    rw [hd]
    rw [max_eq_left (by norm_num)]
    norm_num
  have htl : s1.topLeft = startBR.add (Vec3.smul
      (Real.exp (1 * (projected / max 0.001 d)))
      (startTL.sub startBR)) := rfl
  have hfac : Real.exp (1 * (projected / max 0.001 d)) = Real.exp 1 := by
    rw [hproj, hmax]
    norm_num
  refine ⟨hd, hproj, ?_, ?_⟩
  · rw [htl, add_sub_cancel_vec, length_smul, hfac,
      abs_of_pos (Real.exp_pos 1)]
  · have hlen : (startTL.sub startBR).length = 1/2000 := hd
    rw [htl, add_sub_cancel_vec, length_smul, hfac,
      abs_of_pos (Real.exp_pos 1), hlen, hproj]
    rw [show d = 1/2000 from hd]
    intro heq
    have hcancel := mul_right_cancel₀ (by norm_num : (1/2000 : ℝ) ≠ 0) heq
    have h12 : Real.exp 1 < Real.exp (1 * (1/1000 / (1/2000))) := by
      rw [Real.exp_lt_exp]
      norm_num
    rw [hcancel] at h12
    exact lt_irrefl _ h12

/-- Claim C9 (amended): during a scale manipulation the corner opposite
the manipulated one is left untouched, and the moved corner lands at
distance `exp(k * projected / max 0.001 initialDistance) * initialDistance`
from the anchor for the fixed gain `k = 1` (equal to the claimed
`exp(k * projected / initialDistance)` factor whenever the distance is
at least `0.001`); when the anchor-to-corner distance is zero (degenerate
rectangle) the division is guarded and the moved corner is written back
to its grab-start position, leaving the rectangle unchanged that frame. -/
theorem scale_anchored_exponential (startTL startBR startCtrl curr : Vec3)
    (s : RectState) :
    ((grabFrameUpdate startTL startBR
        (EditAction.scale Corner.topLeft startCtrl curr) s).bottomRight =
      s.bottomRight) ∧
    (((grabFrameUpdate startTL startBR
        (EditAction.scale Corner.topLeft startCtrl curr) s).topLeft.sub
          startBR).length =
      Real.exp (1 * (((curr.sub startCtrl).dot
          ((startTL.sub startBR).normalize)) /
        max 0.001 (startTL.sub startBR).length)) *
        (startTL.sub startBR).length) ∧
    ((startTL.sub startBR).length = 0 →
      (grabFrameUpdate startTL startBR
        (EditAction.scale Corner.topLeft startCtrl curr) s).topLeft =
        startTL) ∧
    ((grabFrameUpdate startTL startBR
        (EditAction.scale Corner.bottomRight startCtrl curr) s).topLeft =
      s.topLeft) ∧
    (((grabFrameUpdate startTL startBR
        (EditAction.scale Corner.bottomRight startCtrl curr) s).bottomRight.sub
          startTL).length =
      Real.exp (1 * (((curr.sub startCtrl).dot
          ((startBR.sub startTL).normalize)) /
        max 0.001 (startBR.sub startTL).length)) *
        (startBR.sub startTL).length) ∧
    ((startBR.sub startTL).length = 0 →
      (grabFrameUpdate startTL startBR
        (EditAction.scale Corner.bottomRight startCtrl curr) s).bottomRight =
        startBR) := by
  refine ⟨rfl, ?_, ?_, rfl, ?_, ?_⟩
  · rw [show (grabFrameUpdate startTL startBR
        (EditAction.scale Corner.topLeft startCtrl curr) s).topLeft =
      (applyEdit startTL startBR
        (EditAction.scale Corner.topLeft startCtrl curr) s).topLeft from rfl]
    rw [applyEdit_scale_topLeft, add_sub_cancel_vec, length_smul,
      abs_of_pos (Real.exp_pos _)]
  · intro h0
    have hdir : startTL.sub startBR = ⟨0, 0, 0⟩ := eq_zero_of_length_eq_zero h0
    have heq : startTL = startBR := sub_eq_zero_vec hdir
    rw [show (grabFrameUpdate startTL startBR
        (EditAction.scale Corner.topLeft startCtrl curr) s).topLeft =
      (applyEdit startTL startBR
        (EditAction.scale Corner.topLeft startCtrl curr) s).topLeft from rfl]
    rw [applyEdit_scale_topLeft, hdir, smul_zero_vec, add_zero_vec]
    exact heq.symm
  · rw [show (grabFrameUpdate startTL startBR
        (EditAction.scale Corner.bottomRight startCtrl curr) s).bottomRight =
      (applyEdit startTL startBR
        (EditAction.scale Corner.bottomRight startCtrl curr) s).bottomRight
      from rfl]
    rw [applyEdit_scale_bottomRight, add_sub_cancel_vec, length_smul,
      abs_of_pos (Real.exp_pos _)]
  · intro h0
    have hdir : startBR.sub startTL = ⟨0, 0, 0⟩ := eq_zero_of_length_eq_zero h0
    have heq : startBR = startTL := sub_eq_zero_vec hdir
    rw [show (grabFrameUpdate startTL startBR
        (EditAction.scale Corner.bottomRight startCtrl curr) s).bottomRight =
      (applyEdit startTL startBR
        (EditAction.scale Corner.bottomRight startCtrl curr) s).bottomRight
      from rfl]
    rw [applyEdit_scale_bottomRight, hdir, smul_zero_vec, add_zero_vec]
    exact heq.symm

/-- Witness for C9's amended claim at the degenerate rectangle: both
corners at the origin; the scale frame leaves the moved corner there. -/
theorem scale_anchored_exponential_witness :
    (grabFrameUpdate ⟨0, 0, 0⟩ ⟨0, 0, 0⟩
        (EditAction.scale Corner.topLeft ⟨0, 0, 0⟩ ⟨1, 2, 3⟩)
        ⟨⟨0, 0, 0⟩, ⟨0, 0, 0⟩, 0, 0, 1⟩).topLeft = ⟨0, 0, 0⟩ :=
  (scale_anchored_exponential ⟨0, 0, 0⟩ ⟨0, 0, 0⟩ ⟨0, 0, 0⟩ ⟨1, 2, 3⟩
    ⟨⟨0, 0, 0⟩, ⟨0, 0, 0⟩, 0, 0, 1⟩).2.2.1
    (by
      show Real.sqrt _ = 0
      rw [show ((⟨0,0,0⟩ : Vec3).sub ⟨0,0,0⟩).dot ((⟨0,0,0⟩ : Vec3).sub ⟨0,0,0⟩) =
        0 by simp [Vec3.sub, Vec3.dot]]
      exact Real.sqrt_zero)

/-! ## JSNum evaluation lemmas -/

lemma mul_num (a b : ℚ) :
    (JSNum.num a).mul (JSNum.num b) = JSNum.num (a * b) := rfl

lemma sub_num (a b : ℚ) :
    (JSNum.num a).sub (JSNum.num b) = JSNum.num (a - b) := rfl

lemma posInf_mul_num {b : ℚ} (h : 0 < b) :
    JSNum.posInf.mul (JSNum.num b) = JSNum.posInf := by
  show (if 0 < b then JSNum.posInf
    else if b < 0 then JSNum.negInf else JSNum.nan) = JSNum.posInf
  rw [if_pos h]

lemma round_num (q : ℚ) :
    (JSNum.num q).round = JSNum.num ((⌊q + 1/2⌋ : ℤ) : ℚ) := rfl

lemma num_isNaN (q : ℚ) : (JSNum.num q).isNaN = false := rfl

lemma posInf_isNaN : JSNum.posInf.isNaN = false := rfl

lemma nan_isNaN : JSNum.nan.isNaN = true := rfl

lemma nan_mul (x : JSNum) : JSNum.nan.mul x = JSNum.nan := by
  cases x <;> rfl

lemma truthy_num_of_ne {q : ℚ} (h : q ≠ 0) :
    (JSNum.num q).truthy = true := by
  show decide (q ≠ 0) = true
  exact decide_eq_true h

/-! ## Claim theorems: controller-state publisher -/

/-- Counterexample to C4 as stated: at a hit with `u = Infinity` the
computed `canvasX = u * screenWidth` is infinite — not a finite
number — yet the code's guard tests only `isNaN`, so the
`VR_CONTROLLER_STATE` is still published carrying the non-finite
coordinate, and `onFrame` likewise stores `onScreen := true` with it. -/
theorem infinite_coordinate_published :
    (sendVRStatePixels true (JSNum.num 1920) (JSNum.num 1080)
        (some (JSNum.posInf, JSNum.num (3/4))) =
      some (JSNum.posInf, JSNum.num 270)) ∧
    JSNum.posInf.isFinite = false ∧
    controllerScreenState (some (JSNum.posInf, JSNum.num (3/4)))
        (JSNum.num 1920) (JSNum.num 1080) =
      ⟨true, some JSNum.posInf, some (JSNum.num 270)⟩ := by
  have hcx : JSNum.posInf.mul (JSNum.num 1920) = JSNum.posInf :=
    posInf_mul_num (by norm_num)
  have hcy : ((JSNum.num 1).sub (JSNum.num (3/4))).mul (JSNum.num 1080) =
      JSNum.num 270 := by
    rw [sub_num, mul_num]
    norm_num
  have hround : (JSNum.num (270 : ℚ)).round = JSNum.num 270 := by
    rw [round_num]
    norm_num
  have hW : (JSNum.num (1920 : ℚ)).truthy = true :=
    truthy_num_of_ne (by norm_num)
  have hH : (JSNum.num (1080 : ℚ)).truthy = true :=
    truthy_num_of_ne (by norm_num)
  refine ⟨?_, rfl, ?_⟩
  · unfold sendVRStatePixels
    rw [if_neg (by simp [hW, hH])]
    dsimp only
    rw [hcx, hcy, if_neg (by simp [posInf_isNaN, num_isNaN]), hround]
    rfl
  · unfold controllerScreenState
    dsimp only
    rw [hcx, hcy, if_pos (by simp [posInf_isNaN, num_isNaN]), hround]
    rfl

/-- Claim C4 (amended): on a ray hit the publisher computes
`canvasX = u * screenWidth` and `canvasY = (1 - v) * screenHeight` and
does not publish pixel coordinates when either result is `NaN` (a
non-finite, non-`NaN` result is not rejected); the published values are
the `Math.round` of the computed ones; for W = 1920, H = 1080,
u = 1/4, v = 3/4 the published pair is (480, 270); and a hit with
`u = NaN`, or no hit at all (`onDisplay = false`), never produces pixel
coordinates. -/
theorem pixel_mapping_nan_guard (u v W H : JSNum) :
    (sendVRStatePixels true W H none = none) ∧
    (controllerScreenState none W H = offScreen) ∧
    ((u.mul W).isNaN = true ∨ (((JSNum.num 1).sub v).mul H).isNaN = true →
      sendVRStatePixels true W H (some (u, v)) = none ∧
      controllerScreenState (some (u, v)) W H = offScreen) ∧
    ((u.mul W).isNaN = false → (((JSNum.num 1).sub v).mul H).isNaN = false →
      W.truthy = true → H.truthy = true →
      sendVRStatePixels true W H (some (u, v)) =
        some ((u.mul W).round, (((JSNum.num 1).sub v).mul H).round)) ∧
    (sendVRStatePixels true (JSNum.num 1920) (JSNum.num 1080)
        (some (JSNum.num (1/4), JSNum.num (3/4))) =
      some (JSNum.num 480, JSNum.num 270)) ∧
    (sendVRStatePixels true W H (some (JSNum.nan, v)) = none) ∧
    (controllerScreenState (some (JSNum.nan, v)) W H = offScreen) := by
  refine ⟨?_, rfl, ?_, ?_, ?_, ?_, ?_⟩
  · unfold sendVRStatePixels
    split
    · rfl
    · rfl
  · intro h
    constructor
    · unfold sendVRStatePixels
      split
      · rfl
      · rcases h with h | h <;> simp [h]
    · unfold controllerScreenState
      rcases h with h | h <;> simp [h]
  · intro h1 h2 h3 h4
    unfold sendVRStatePixels
    rw [if_neg (by simp [h3, h4])]
    simp [h1, h2]
  · have hcx : (JSNum.num (1/4)).mul (JSNum.num 1920) = JSNum.num 480 := by
      rw [mul_num]
      norm_num
    have hcy : ((JSNum.num 1).sub (JSNum.num (3/4))).mul (JSNum.num 1080) =
        JSNum.num 270 := by
      rw [sub_num, mul_num]
      norm_num
    have h480 : (JSNum.num (480 : ℚ)).round = JSNum.num 480 := by
      rw [round_num]
      norm_num
    have h270 : (JSNum.num (270 : ℚ)).round = JSNum.num 270 := by
      rw [round_num]
      norm_num
    have hW19 : (JSNum.num (1920 : ℚ)).truthy = true :=
      truthy_num_of_ne (by norm_num)
    have hH10 : (JSNum.num (1080 : ℚ)).truthy = true :=
      truthy_num_of_ne (by norm_num)
    unfold sendVRStatePixels
    rw [if_neg (by simp [hW19, hH10])]
    dsimp only
    rw [hcx, hcy, if_neg (by simp [num_isNaN]), h480, h270]
  · unfold sendVRStatePixels
    split
    · rfl
    · simp [nan_mul, nan_isNaN]
  · unfold controllerScreenState
    simp [nan_mul, nan_isNaN]

/-- Witness for C4's amended claim at the concrete spec values
u = 1/4, v = 3/4, W = 1920, H = 1080. -/
theorem pixel_mapping_nan_guard_witness :
    sendVRStatePixels true (JSNum.num 1920) (JSNum.num 1080)
        (some (JSNum.num (1/4), JSNum.num (3/4))) =
      some (((JSNum.num (1/4)).mul (JSNum.num 1920)).round,
        (((JSNum.num 1).sub (JSNum.num (3/4))).mul (JSNum.num 1080)).round) :=
  (pixel_mapping_nan_guard (JSNum.num (1/4)) (JSNum.num (3/4))
    (JSNum.num 1920) (JSNum.num 1080)).2.2.2.1 rfl rfl
    (truthy_num_of_ne (by norm_num)) (truthy_num_of_ne (by norm_num))

end VRDS
